import Mathlib

/-!
Verification of `src/lib/gui/modules/drive-scanner.js` (Etcher drive scanner).

The module is a polling wrapper around an external drive-enumeration
facility: a `DriveScanner` class with `start`/`stop`/`run`, a static
post-processing step `processDrives`, and a static `scan` that filters
system drives unless the `unsafeMode` setting is enabled, emitting
`drives` or `error` events.

The embedding below translates the source:
  * drive descriptors become the `Drive` structure (JS objects whose
    `name` property is absent until assigned: `Option String`);
  * `processDrives` (lines 118-130) becomes `DriveScanner.processDrives`
    over a platform string (`os.platform()` is an ambient constant);
  * the mutation performed by `processDrives` (`drive.name = ...` mutates
    the input objects in place) is modelled separately by
    `DriveScanner.processDrivesHeap`, which threads an explicit store of
    descriptor objects addressed by references;
  * `scan` (lines 142-161) becomes `DriveScanner.scan`, with
    `DriveScanner.scanLog` additionally recording which collaborators
    (post-processing, settings store) the successful branch touches;
  * the timer/event-loop behaviour of `start`/`run`/`stop` becomes a
    small-step semantics on `World`, which tracks the scanner's fields
    (`isRunning`, `timer`, `scanCount`, `errorCount`) together with the
    runtime's pending timeouts, the number of in-flight scan callbacks,
    and the log of emitted events.
-/

/-- A mount point as reported by the enumeration facility: a record with a
`path` property (`_.map(drive.mountpoints, 'path')` reads it). -/
structure Mountpoint where
  path : String
deriving DecidableEq, Repr

/-- A drive descriptor: device identifier, system-drive flag, mount points
(a JS array; an absent/empty array is `[]`), and the display `name`
property, absent (`none`) until `processDrives` assigns it. -/
structure Drive where
  device : String
  system : Bool
  mountpoints : List Mountpoint
  name : Option String := none
deriving DecidableEq, Repr

instance : Inhabited Drive := ⟨{ device := "", system := false, mountpoints := [] }⟩

/-- `DRIVE_SCANNER_DELAY_MS` (line 26): steady-state polling interval. -/
def DRIVE_SCANNER_DELAY_MS : Nat := 2000

/-- `DRIVE_SCANNER_FIRST_SCAN_DELAY_MS` (line 27): delay before the first
scan after `start()`. -/
def DRIVE_SCANNER_FIRST_SCAN_DELAY_MS : Nat := 125

namespace DriveScanner

/-- The body of the `_.map` callback of `processDrives` (lines 119-128),
as a value-level function: set `name` to the device identifier, then, when
the platform is `win32` and the mount-point list is non-empty, override it
with the mount-point paths joined by `", "`. -/
def deriveName (platform : String) (drive : Drive) : Drive :=
  let d := { drive with name := some drive.device }
  if platform = "win32" ∧ ¬ d.mountpoints.isEmpty then
    { d with name := some (String.intercalate ", " (d.mountpoints.map Mountpoint.path)) }
  else
    d

/-- `DriveScanner.processDrives` (lines 118-130), value level: `_.map`
over the list with the name-derivation callback. -/
def processDrives (platform : String) (drives : List Drive) : List Drive :=
  drives.map (deriveName platform)

/-- `DriveScanner.processDrives` with the source's in-place mutation made
explicit: descriptor objects live in a `store` and the drive list is a
list of references into it.  The `_.map` callback executes
`drive.name = ...` on the referenced object (a store update) and returns
the same reference. -/
def processDrivesHeap (platform : String) :
    List Drive → List Nat → List Drive × List Nat
  | store, [] => (store, [])
  | store, r :: rs =>
      let store1 := store.set r (deriveName platform (store.getD r default))
      let res := processDrivesHeap platform store1 rs
      (res.1, r :: res.2)

/-- The post-processing performed by `scan` on a successful enumeration
(lines 150-156): `processDrives`, then, unless the `unsafeMode` setting is
enabled, `_.reject(list, {system: true})`. -/
def postProcess (platform : String) (unsafeMode : Bool) (drives : List Drive) :
    List Drive :=
  let list := processDrives platform drives
  if !unsafeMode then list.filter (fun d => !d.system) else list

/-- Collaborator touches of the successful branch of `scan`, in execution
order: the `processDrives` call (line 150) and the `settings.get`
read (line 152). -/
inductive ScanEffect where
  | processDrivesCall
  | settingsRead
deriving DecidableEq, Repr

/-- `DriveScanner.scan` (lines 142-161) as a function of the result the
`drivelist.list` callback receives, paired with the log of collaborator
touches: on error the callback is invoked with the error at once (nothing
else runs); on success the list is post-processed, the settings store is
read, and the callback receives the filtered list. -/
def scanLog {ε : Type} (platform : String) (unsafeMode : Bool) :
    Except ε (List Drive) → Except ε (List Drive) × List ScanEffect
  | .error e => (.error e, [])
  | .ok drives =>
      (.ok (postProcess platform unsafeMode drives),
       [ScanEffect.processDrivesCall, ScanEffect.settingsRead])

/-- What the `scan` callback receives (the value component of `scanLog`). -/
def scan {ε : Type} (platform : String) (unsafeMode : Bool)
    (res : Except ε (List Drive)) : Except ε (List Drive) :=
  (scanLog platform unsafeMode res).1

end DriveScanner

/-- An event emitted by the scanner (lines 86-88): `error` carrying the
enumeration error, or `drives` carrying the post-processed list. -/
inductive Event (ε : Type) where
  | error (e : ε)
  | drives (ds : List Drive)
deriving DecidableEq, Repr

/-- The ambient collaborators `scan` consults: `os.platform()` and the
settings store's `unsafeMode` flag.  Constant during a run. -/
structure Env where
  platform : String
  unsafeMode : Bool
deriving DecidableEq, Repr

/-- The scanner object together with the parts of the JS runtime its
behaviour depends on.  `isRunning`, `timer`, `scanCount` and `errorCount`
are the fields set by the constructor (lines 48-55); `timer` holds the id
of the most recently armed timeout (`null` initially).  `pendingTimers`
is the runtime's queue of not-yet-fired timeouts as (id, delay) pairs —
the object tracks only the latest id, but earlier armed timeouts stay
pending.  `nextId` supplies fresh timeout ids.  `inFlight` counts scans
whose `drivelist.list` callback has not yet run, and `events` logs every
event emitted, in order. -/
structure World (ε : Type) where
  isRunning : Bool
  timer : Option Nat
  scanCount : Nat
  errorCount : Nat
  pendingTimers : List (Nat × Nat)
  nextId : Nat
  inFlight : Nat
  events : List (Event ε)
deriving DecidableEq, Repr

/-- The world right after `new DriveScanner()` (constructor, lines 48-55):
not running, no timer, zero counters, nothing pending or in flight. -/
def World.initial (ε : Type) : World ε :=
  { isRunning := false, timer := none, scanCount := 0, errorCount := 0,
    pendingTimers := [], nextId := 0, inFlight := 0, events := [] }

instance {ε α : Type} [DecidableEq ε] [DecidableEq α] :
    DecidableEq (Except ε α) := fun x y =>
  match x, y with
  | .error a, .error b => decidable_of_iff (a = b) (by simp)
  | .error _, .ok _ => isFalse (fun h => Except.noConfusion h)
  | .ok _, .error _ => isFalse (fun h => Except.noConfusion h)
  | .ok a, .ok b => decidable_of_iff (a = b) (by simp)

/-- An externally observable action on the scanner: the public calls
`start`/`stop`, the runtime firing a pending timeout (which invokes
`run`), or an in-flight `drivelist.list` call completing with `res`. -/
inductive ScannerAction (ε : Type) where
  | start
  | stop
  | fire (id : Nat)
  | complete (res : Except ε (List Drive))
deriving DecidableEq, Repr

namespace DriveScanner

/-- `start()` (lines 63-67): set `isRunning`, arm a timeout after
`DRIVE_SCANNER_FIRST_SCAN_DELAY_MS` and store its id in `timer`
(overwriting any previously stored id without cancelling it). -/
def start {ε : Type} (w : World ε) : World ε :=
  { w with isRunning := true,
           timer := some w.nextId,
           pendingTimers :=
             w.pendingTimers ++ [(w.nextId, DRIVE_SCANNER_FIRST_SCAN_DELAY_MS)],
           nextId := w.nextId + 1 }

/-- `stop()` (lines 103-107): clear `isRunning` and `clearTimeout` the
tracked timer id (a no-op when `timer` is `null` or the timeout already
fired). -/
def stop {ε : Type} (w : World ε) : World ε :=
  { w with isRunning := false,
           pendingTimers :=
             match w.timer with
             | none => w.pendingTimers
             | some id => w.pendingTimers.filter (fun t => t.1 != id) }

/-- The body of `run()` (lines 75-95) up to the asynchronous call: if not
running return at once; otherwise increment `scanCount` and start a scan
(one more callback in flight). -/
def run {ε : Type} (w : World ε) : World ε :=
  if w.isRunning then
    { w with scanCount := w.scanCount + 1, inFlight := w.inFlight + 1 }
  else
    w

/-- The runtime fires the pending timeout `id`: it leaves the pending
queue and its handler `run` executes.  A timeout that is not pending
cannot fire. -/
def fire {ε : Type} (w : World ε) (id : Nat) : World ε :=
  if id ∈ w.pendingTimers.map Prod.fst then
    run { w with pendingTimers := w.pendingTimers.filter (fun t => t.1 != id) }
  else
    w

/-- The `scan` callback inside `run` (lines 82-93), executed when the
enumeration result `res` arrives: on error increment `errorCount` and
emit `error`; otherwise emit `drives` with the post-processed list; then,
if still running, arm the next timeout after `DRIVE_SCANNER_DELAY_MS`. -/
def scanComplete {ε : Type} (env : Env) (w : World ε)
    (res : Except ε (List Drive)) : World ε :=
  let w1 :=
    match scan env.platform env.unsafeMode res with
    | .error e =>
        { w with errorCount := w.errorCount + 1,
                 events := w.events ++ [Event.error e] }
    | .ok list =>
        { w with events := w.events ++ [Event.drives list] }
  if w1.isRunning then
    { w1 with timer := some w1.nextId,
              pendingTimers :=
                w1.pendingTimers ++ [(w1.nextId, DRIVE_SCANNER_DELAY_MS)],
              nextId := w1.nextId + 1 }
  else
    w1

/-- One step of the world: perform the action.  `fire` of a non-pending
id and `complete` with nothing in flight cannot occur and leave the world
unchanged. -/
def step {ε : Type} (env : Env) (w : World ε) : ScannerAction ε → World ε
  | .start => start w
  | .stop => stop w
  | .fire id => fire w id
  | .complete res =>
      if 0 < w.inFlight then
        scanComplete env { w with inFlight := w.inFlight - 1 } res
      else
        w

/-- Execute a sequence of actions from `w`. -/
def execTrace {ε : Type} (env : Env) (w : World ε) : List (ScannerAction ε) → World ε
  | [] => w
  | a :: as => execTrace env (step env w a) as

/-- The single event the `scan` callback emits for the enumeration result
`res`: `error` when the facility failed, `drives` with the post-processed
list otherwise. -/
def emitted {ε : Type} (env : Env) (res : Except ε (List Drive)) : Event ε :=
  match scan env.platform env.unsafeMode res with
  | .error e => Event.error e
  | .ok list => Event.drives list

/-- The trace discipline under which the source keeps its single-timer
invariant: `start()` is only ever called when the scanner is idle — no
timeout pending and no scan callback in flight. -/
def startsOnlyWhenIdle {ε : Type} [DecidableEq ε] (env : Env) :
    World ε → List (ScannerAction ε) → Bool
  | _, [] => true
  | w, a :: as =>
      (if a = ScannerAction.start then w.pendingTimers.isEmpty && w.inFlight == 0
       else true)
        && startsOnlyWhenIdle env (step env w a) as

end DriveScanner

/-- `{device: "/dev/sda", system: true}` from the spec's scenario. -/
def exSda : Drive := { device := "/dev/sda", system := true, mountpoints := [] }

/-- `{device: "/dev/sdb", system: false}` from the spec's scenario. -/
def exSdb : Drive := { device := "/dev/sdb", system := false, mountpoints := [] }

/-- A descriptor with the spec's Windows mount points `["D:\\", "E:\\"]`. -/
def exWin : Drive :=
  { device := "dev", system := false,
    mountpoints := [{ path := "D:\\" }, { path := "E:\\" }] }

/-- A non-Windows environment with `unsafeMode` disabled. -/
def envLinuxSafe : Env := { platform := "linux", unsafeMode := false }

/-- A running world with one scan callback in flight. -/
def exRunning : World Nat :=
  { isRunning := true, timer := some 0, scanCount := 1, errorCount := 0,
    pendingTimers := [], nextId := 1, inFlight := 1, events := [] }

/-- A stopped world with one scan callback still in flight (`stop()` was
called while a scan was running). -/
def exStopped : World Nat :=
  { isRunning := false, timer := none, scanCount := 3, errorCount := 1,
    pendingTimers := [], nextId := 5, inFlight := 1, events := [] }

open DriveScanner

/-- Helper for C7: `processDrivesHeap` returns the same references in the
same order, updates each referenced store cell to its name-derived value,
and leaves every other cell untouched. -/
theorem processDrivesHeap_spec (p : String) : ∀ (refs : List Nat) (store : List Drive),
    refs.Nodup → (∀ r ∈ refs, r < store.length) →
    (processDrivesHeap p store refs).2 = refs ∧
    (∀ r ∈ refs, (processDrivesHeap p store refs).1[r]? =
        some (deriveName p (store.getD r default))) ∧
    (∀ j, j ∉ refs → (processDrivesHeap p store refs).1[j]? = store[j]?) := by
  intro refs
  induction refs with
  | nil => intro store _ _; simp [processDrivesHeap]
  | cons r rs ih =>
      intro store hnd hlt
      obtain ⟨hr, hnd'⟩ := List.nodup_cons.mp hnd
      have hrlt : r < store.length := hlt r (List.mem_cons_self r rs)
      have heq : processDrivesHeap p store (r :: rs) =
          ((processDrivesHeap p (store.set r (deriveName p (store.getD r default))) rs).1,
           r :: (processDrivesHeap p (store.set r (deriveName p (store.getD r default))) rs).2) :=
        rfl
      obtain ⟨ih1, ih2, ih3⟩ :=
        ih (store.set r (deriveName p (store.getD r default))) hnd'
          (fun x hx => by
            rw [List.length_set]
            exact hlt x (List.mem_cons_of_mem _ hx))
      refine ⟨?_, ?_, ?_⟩
      · rw [heq, ih1]
      · intro x hx
        rcases List.mem_cons.mp hx with hxr | hxs
        · subst hxr
          rw [heq]
          rw [ih3 x hr]
          simp [List.getElem?_set_self', hrlt]
        · have hne : r ≠ x := fun hh => hr (hh ▸ hxs)
          have hgd : (store.set r (deriveName p (store.getD r default))).getD x default =
              store.getD x default := by
            simp only [List.getD_eq_getElem?_getD]
            rw [List.getElem?_set_ne hne]
          rw [heq]
          rw [ih2 x hxs, hgd]
      · intro j hj
        have hjr : r ≠ j := fun hh => hj (hh ▸ List.mem_cons_self r rs)
        have hjs : j ∉ rs := fun hh => hj (List.mem_cons_of_mem _ hh)
        rw [heq]
        rw [ih3 j hjs]
        exact List.getElem?_set_ne hjr

/-- C1: with `unsafeMode = false` the post-processed output of a scan
excludes every descriptor whose system-drive flag is true (every survivor
has `system = false`, and every non-system descriptor survives); with
`unsafeMode = true` every descriptor, system-flagged ones included, is
retained; the output is a sublist of the name-derived input list, so the
relative order of survivors equals their order in the input. -/
theorem C1_system_drive_filter (p : String) (u : Bool) (ds : List Drive) :
    (postProcess p u ds).Sublist (processDrives p ds) ∧
    (u = false → ∀ d ∈ postProcess p u ds, d.system = false) ∧
    (u = false → ∀ d ∈ processDrives p ds, d.system = false → d ∈ postProcess p u ds) ∧
    (u = true → postProcess p u ds = processDrives p ds) := by
  unfold postProcess
  cases u <;> simp [List.filter_sublist, List.mem_filter]
  exact fun d hd hs => ⟨hd, hs⟩

theorem C1_system_drive_filter_witness :
    (postProcess "linux" false [exSda, exSdb]).Sublist
      (processDrives "linux" [exSda, exSdb]) ∧
    (deriveName "linux" exSdb).system = false ∧
    postProcess "linux" true [exSda, exSdb] = processDrives "linux" [exSda, exSdb] :=
  ⟨(C1_system_drive_filter "linux" false [exSda, exSdb]).1,
   (C1_system_drive_filter "linux" false [exSda, exSdb]).2.1 rfl
     (deriveName "linux" exSdb) (by decide),
   (C1_system_drive_filter "linux" true [exSda, exSdb]).2.2.2 rfl⟩

/-- C2: the display name derived by `processDrives` for a descriptor is
its device identifier on every non-Windows platform; on `win32` it is the
mount-point paths joined by `", "` in their given order when there is at
least one mount point, and the device identifier when there is none. -/
theorem C2_display_name (platform : String) (d : Drive) :
    (platform ≠ "win32" → (deriveName platform d).name = some d.device) ∧
    (platform = "win32" → d.mountpoints ≠ [] →
      (deriveName platform d).name =
        some (String.intercalate ", " (d.mountpoints.map Mountpoint.path))) ∧
    (platform = "win32" → d.mountpoints = [] →
      (deriveName platform d).name = some d.device) := by
  unfold deriveName
  refine ⟨fun h => ?_, fun h1 h2 => ?_, fun h1 h2 => ?_⟩ <;>
    simp_all [List.isEmpty_iff]

theorem C2_display_name_witness :
    (deriveName "linux" exWin).name = some "dev" ∧
    (deriveName "win32" exWin).name =
      some (String.intercalate ", " (exWin.mountpoints.map Mountpoint.path)) ∧
    String.intercalate ", " (exWin.mountpoints.map Mountpoint.path) = "D:\\, E:\\" ∧
    (deriveName "win32" exSdb).name = some "/dev/sdb" :=
  ⟨(C2_display_name "linux" exWin).1 (by decide),
   (C2_display_name "win32" exWin).2.1 rfl (by decide),
   by decide,
   (C2_display_name "win32" exSdb).2.2 rfl rfl⟩

/-- C6: on a non-Windows platform, when enumeration returns
`[{device: "/dev/sda", system: true}, {device: "/dev/sdb", system: false}]`
and `unsafeMode` is false, the scan callback receives — and the emitted
`drives` event carries — exactly
`[{device: "/dev/sdb", system: false, name: "/dev/sdb"}]`. -/
theorem C6_linux_scenario :
    scan "linux" false (Except.ok [exSda, exSdb] : Except Nat (List Drive)) =
      Except.ok [{ device := "/dev/sdb", system := false, mountpoints := [],
                   name := some "/dev/sdb" }] ∧
    (scanComplete envLinuxSafe (DriveScanner.start (World.initial Nat))
        (Except.ok [exSda, exSdb])).events =
      [Event.drives [{ device := "/dev/sdb", system := false, mountpoints := [],
                       name := some "/dev/sdb" }]] := by
  exact ⟨rfl, rfl⟩

/-- C7 is false as stated: `processDrives` does not leave its input
descriptors unmodified — its `_.map` callback executes
`drive.name = drive.device` on each input object.  Starting from a store
holding one raw descriptor (`name` absent), after the call the same cell
carries the derived name. -/
theorem C7_counterexample :
    (processDrivesHeap "linux" [exSda] [0]).1 ≠ [exSda] ∧
    ((processDrivesHeap "linux" [exSda] [0]).1.getD 0 default).name =
      some "/dev/sda" ∧
    exSda.name = none := by decide

/-- C7 amended: `processDrives` is deterministic given its arguments and
the platform, and returns the references of its input list in the same
order; but it produces the display-named list by mutating each referenced
input descriptor in place (replacing it with its name-derived value),
leaving every store cell outside the list untouched. -/
theorem C7_amended_in_place (p : String) (store : List Drive) (refs : List Nat)
    (hnd : refs.Nodup) (hlt : ∀ r ∈ refs, r < store.length) :
    (processDrivesHeap p store refs).2 = refs ∧
    (∀ r ∈ refs, (processDrivesHeap p store refs).1[r]? =
        some (deriveName p (store.getD r default))) ∧
    (∀ j, j ∉ refs → (processDrivesHeap p store refs).1[j]? = store[j]?) :=
  processDrivesHeap_spec p refs store hnd hlt

theorem C7_amended_in_place_witness :
    (processDrivesHeap "linux" [exSda, exSdb] [0, 1]).2 = [0, 1] ∧
    (processDrivesHeap "linux" [exSda, exSdb] [0, 1]).1[0]? =
      some (deriveName "linux" ([exSda, exSdb].getD 0 default)) ∧
    (processDrivesHeap "linux" [exSda, exSdb] [0, 1]).1[2]? = [exSda, exSdb][2]? :=
  ⟨(C7_amended_in_place "linux" [exSda, exSdb] [0, 1] (by decide) (by decide)).1,
   (C7_amended_in_place "linux" [exSda, exSdb] [0, 1] (by decide) (by decide)).2.1
     0 (by decide),
   (C7_amended_in_place "linux" [exSda, exSdb] [0, 1] (by decide) (by decide)).2.2
     2 (by decide)⟩

/-- C8: a tick that fires while the scanner is not running returns
immediately: `run` leaves the world unchanged — no scan starts, the scan
counter does not move, no event is emitted, no timer is armed — and the
full `fire` transition changes no scanner state either. -/
theorem C8_run_guard {ε : Type} (w : World ε) (id : Nat)
    (h : w.isRunning = false) :
    DriveScanner.run w = w ∧
    (fire w id).scanCount = w.scanCount ∧
    (fire w id).errorCount = w.errorCount ∧
    (fire w id).inFlight = w.inFlight ∧
    (fire w id).events = w.events ∧
    (fire w id).isRunning = w.isRunning ∧
    (fire w id).timer = w.timer := by
  constructor
  · unfold DriveScanner.run
    simp [h]
  · unfold fire DriveScanner.run
    split <;> simp [h]

theorem C8_run_guard_witness :
    DriveScanner.run (World.initial Nat) = World.initial Nat ∧
    (fire (World.initial Nat) 0).scanCount = (World.initial Nat).scanCount :=
  ⟨(C8_run_guard (World.initial Nat) 0 rfl).1,
   (C8_run_guard (World.initial Nat) 0 rfl).2.1⟩

/-- C3: when the enumeration facility returns an error and a scan is in
flight, completing it emits exactly one `error` event carrying that
error (in particular no `drives` event), increments the error counter by
exactly one, leaves the scan counter alone, and — exactly when the
scanner is still running at callback time — arms the next timeout after
the steady-state interval `DRIVE_SCANNER_DELAY_MS`. -/
theorem C3_error_tick {ε : Type} (env : Env) (w : World ε) (e : ε)
    (h : 0 < w.inFlight) :
    (step env w (.complete (.error e))).events = w.events ++ [Event.error e] ∧
    (step env w (.complete (.error e))).errorCount = w.errorCount + 1 ∧
    (step env w (.complete (.error e))).scanCount = w.scanCount ∧
    (w.isRunning = true →
      (step env w (.complete (.error e))).pendingTimers =
        w.pendingTimers ++ [(w.nextId, DRIVE_SCANNER_DELAY_MS)]) ∧
    (w.isRunning = false →
      (step env w (.complete (.error e))).pendingTimers = w.pendingTimers) := by
  cases hr : w.isRunning <;>
    simp [step, h, scanComplete, scan, scanLog, hr]

theorem C3_error_tick_witness :
    (step envLinuxSafe exRunning (.complete (.error 7))).events = [Event.error 7] ∧
    (step envLinuxSafe exRunning (.complete (.error 7))).errorCount = 1 ∧
    (step envLinuxSafe exRunning (.complete (.error 7))).scanCount = 1 ∧
    (step envLinuxSafe exRunning (.complete (.error 7))).pendingTimers =
      [(1, DRIVE_SCANNER_DELAY_MS)] :=
  ⟨(C3_error_tick envLinuxSafe exRunning 7 (by decide)).1,
   (C3_error_tick envLinuxSafe exRunning 7 (by decide)).2.1,
   (C3_error_tick envLinuxSafe exRunning 7 (by decide)).2.2.1,
   (C3_error_tick envLinuxSafe exRunning 7 (by decide)).2.2.2.1 rfl⟩

/-- Helper: no single step ever decreases the scan or error counter. -/
theorem step_counters_mono {ε : Type} (env : Env) (w : World ε)
    (a : ScannerAction ε) :
    w.scanCount ≤ (step env w a).scanCount ∧
    w.errorCount ≤ (step env w a).errorCount := by
  cases a with
  | start => simp [step, DriveScanner.start]
  | stop => simp [step, stop]
  | fire id =>
      simp only [step, fire]
      split
      · simp only [DriveScanner.run]
        split <;> simp
      · simp
  | complete res =>
      simp only [step]
      split
      · cases res <;> cases hr : w.isRunning <;>
          simp [scanComplete, scan, scanLog, hr]
      · simp

/-- Helper: counters never decrease along any trace. -/
theorem execTrace_counters_mono {ε : Type} (env : Env) :
    ∀ (as : List (ScannerAction ε)) (w : World ε),
    w.scanCount ≤ (execTrace env w as).scanCount ∧
    w.errorCount ≤ (execTrace env w as).errorCount := by
  intro as
  induction as with
  | nil => intro w; exact ⟨le_refl _, le_refl _⟩
  | cons a as ih =>
      intro w
      have h1 := step_counters_mono env w a
      have h2 := ih (step env w a)
      exact ⟨h1.1.trans h2.1, h1.2.trans h2.2⟩

/-- C9: the scan and error counters are monotonically non-decreasing
across every operation and every trace of operations (they are never
reset after construction), and a tick that actually executes a scan (a
pending timeout fires while the scanner is running) increments the scan
counter by exactly one. -/
theorem C9_counters {ε : Type} (env : Env) (w : World ε) :
    (∀ a, w.scanCount ≤ (step env w a).scanCount ∧
          w.errorCount ≤ (step env w a).errorCount) ∧
    (∀ as, w.scanCount ≤ (execTrace env w as).scanCount ∧
           w.errorCount ≤ (execTrace env w as).errorCount) ∧
    (∀ id, w.isRunning = true → id ∈ w.pendingTimers.map Prod.fst →
      (step env w (.fire id)).scanCount = w.scanCount + 1) := by
  refine ⟨fun a => step_counters_mono env w a,
          fun as => execTrace_counters_mono env as w,
          fun id hr hm => ?_⟩
  simp [step, fire, hm, DriveScanner.run, hr]

theorem C9_counters_witness :
    exRunning.scanCount ≤ (step envLinuxSafe exRunning ScannerAction.stop).scanCount ∧
    (step envLinuxSafe { exRunning with pendingTimers := [(0, 125)] }
        (.fire 0)).scanCount = exRunning.scanCount + 1 :=
  ⟨((C9_counters envLinuxSafe exRunning).1 ScannerAction.stop).1,
   (C9_counters envLinuxSafe { exRunning with pendingTimers := [(0, 125)] }).2.2
     0 rfl (by decide)⟩

/-- C10: every completion of a scan emits exactly one event — `error`
carrying the enumeration error exactly when the facility failed, and
otherwise `drives` with the post-processed list — never both and never
neither; and on the error path the successful branch's collaborator
touches (the `processDrives` call and the settings-store read) do not
happen. -/
theorem C10_one_event_per_completion {ε : Type} (env : Env) (w : World ε)
    (res : Except ε (List Drive)) :
    (scanComplete env w res).events = w.events ++ [emitted env res] ∧
    (∀ e, emitted env res = Event.error e ↔ res = Except.error e) ∧
    (∀ ds, res = Except.ok ds →
      emitted env res = Event.drives (postProcess env.platform env.unsafeMode ds)) ∧
    (∀ e, res = Except.error e →
      (scanLog env.platform env.unsafeMode res).2 = []) := by
  cases res <;> cases hr : w.isRunning <;>
    simp [scanComplete, emitted, scan, scanLog, hr]

theorem C10_one_event_per_completion_witness :
    (scanComplete envLinuxSafe exRunning (Except.error 5)).events =
      [emitted envLinuxSafe (Except.error 5)] ∧
    (scanLog envLinuxSafe.platform envLinuxSafe.unsafeMode
        (Except.error 5 : Except Nat (List Drive))).2 = [] :=
  ⟨(C10_one_event_per_completion envLinuxSafe exRunning (Except.error 5)).1,
   (C10_one_event_per_completion envLinuxSafe exRunning (Except.error 5)).2.2.2
     5 rfl⟩

/-- Helper: one step taken while the scanner is stopped, by any action
other than `start`, keeps it stopped, executes no scan, keeps the sum of
emitted events and in-flight callbacks constant (each completion trades
one in-flight callback for one event), never loses an emitted event, and
arms no new timer. -/
theorem step_stopped {ε : Type} (env : Env) (w : World ε) (a : ScannerAction ε)
    (hr : w.isRunning = false) (ha : a ≠ ScannerAction.start) :
    (step env w a).isRunning = false ∧
    (step env w a).scanCount = w.scanCount ∧
    (step env w a).events.length + (step env w a).inFlight =
      w.events.length + w.inFlight ∧
    (step env w a).pendingTimers.length ≤ w.pendingTimers.length ∧
    w.events.length ≤ (step env w a).events.length := by
  cases a with
  | start => exact absurd rfl ha
  | stop =>
      cases ht : w.timer with
      | none => simp [step, stop, ht]
      | some id =>
          simp [step, stop, ht]
          exact List.length_filter_le _ _
  | fire id =>
      simp only [step, fire]
      split
      · simp [DriveScanner.run, hr]
        exact List.length_filter_le _ _
      · simp [hr]
  | complete res =>
      simp only [step]
      split
      · next hin =>
          cases res <;>
            simp [scanComplete, scan, scanLog, hr] <;>
            omega
      · simp [hr]

/-- C5: once the scanner is stopped, along any continuation that does not
call `start()` again: it stays stopped, no further scan executes (the
scan counter is frozen), no timer is armed (pending timeouts only drain),
and the only events that can still fire are the completions of scans
already in flight — the events emitted plus the callbacks still in
flight is a constant, so once every in-flight callback has resolved no
further event fires. -/
theorem C5_stop_quiescence {ε : Type} (env : Env) (w : World ε)
    (as : List (ScannerAction ε))
    (hr : w.isRunning = false) (hs : ScannerAction.start ∉ as) :
    (execTrace env w as).isRunning = false ∧
    (execTrace env w as).scanCount = w.scanCount ∧
    (execTrace env w as).events.length + (execTrace env w as).inFlight =
      w.events.length + w.inFlight ∧
    (execTrace env w as).pendingTimers.length ≤ w.pendingTimers.length ∧
    w.events.length ≤ (execTrace env w as).events.length := by
  induction as generalizing w with
  | nil => exact ⟨hr, rfl, rfl, le_refl _, le_refl _⟩
  | cons a as ih =>
      have hna : a ≠ ScannerAction.start := fun hh => hs (hh ▸ List.mem_cons_self a as)
      have h1 := step_stopped env w a hr hna
      have h2 := ih (step env w a) h1.1 (fun hh => hs (List.mem_cons_of_mem _ hh))
      exact ⟨h2.1, h2.2.1.trans h1.2.1, h2.2.2.1.trans h1.2.2.1,
             h2.2.2.2.1.trans h1.2.2.2.1, h1.2.2.2.2.trans h2.2.2.2.2⟩

theorem C5_stop_quiescence_witness :
    (execTrace envLinuxSafe exStopped [.complete (.ok [exSdb])]).isRunning = false ∧
    (execTrace envLinuxSafe exStopped [.complete (.ok [exSdb])]).scanCount =
      exStopped.scanCount ∧
    (execTrace envLinuxSafe exStopped [.complete (.ok [exSdb])]).events.length +
      (execTrace envLinuxSafe exStopped [.complete (.ok [exSdb])]).inFlight =
      exStopped.events.length + exStopped.inFlight :=
  ⟨(C5_stop_quiescence envLinuxSafe exStopped [.complete (.ok [exSdb])] rfl
      (by decide)).1,
   (C5_stop_quiescence envLinuxSafe exStopped [.complete (.ok [exSdb])] rfl
      (by decide)).2.1,
   (C5_stop_quiescence envLinuxSafe exStopped [.complete (.ok [exSdb])] rfl
      (by decide)).2.2.1⟩

/-- C4 is false as stated: it quantifies over all start/stop sequences,
including `start()` while already running — but `start(); start()` arms a
second timeout without cancelling the first (the object stores only the
newest handle), so two scan timers are pending at once. -/
theorem C4_counterexample :
    (execTrace envLinuxSafe (World.initial Nat)
        [ScannerAction.start, ScannerAction.start]).pendingTimers.length = 2 ∧
    ¬ ((execTrace envLinuxSafe (World.initial Nat)
        [ScannerAction.start, ScannerAction.start]).pendingTimers.length ≤ 1) := by
  exact ⟨rfl, by decide⟩

/-- Helper: a single step preserves the invariant "pending timers plus
in-flight callbacks ≤ 1", provided `start` is only taken from an idle
world. -/
theorem step_timer_inv {ε : Type} (env : Env) (w : World ε) (a : ScannerAction ε)
    (hw : w.pendingTimers.length + w.inFlight ≤ 1)
    (ha : a = ScannerAction.start → w.pendingTimers = [] ∧ w.inFlight = 0) :
    (step env w a).pendingTimers.length + (step env w a).inFlight ≤ 1 := by
  cases a with
  | start =>
      obtain ⟨h1, h2⟩ := ha rfl
      simp [step, DriveScanner.start, h1, h2]
  | stop =>
      cases ht : w.timer with
      | none => simpa [step, stop, ht] using hw
      | some id =>
          have hf := List.length_filter_le (fun t => t.1 != id) w.pendingTimers
          simp only [step, stop, ht]
          omega
  | fire id =>
      by_cases hc : id ∈ w.pendingTimers.map Prod.fst
      · obtain ⟨t, hts, hid⟩ := List.mem_map.mp hc
        have hpos : 0 < w.pendingTimers.length :=
          List.length_pos.mpr (List.ne_nil_of_mem hts)
        have hlen1 : w.pendingTimers.length = 1 := by omega
        have hin0 : w.inFlight = 0 := by omega
        obtain ⟨t', hts'⟩ := List.length_eq_one.mp hlen1
        have htt : t = t' := by
          have := hts
          rw [hts'] at this
          simpa using this
        have hfilter : w.pendingTimers.filter (fun t => t.1 != id) = [] := by
          rw [hts', ← htt]
          simp [hid]
        cases hr : w.isRunning <;>
          simp [step, fire, hc, DriveScanner.run, hfilter, hin0, hr]
      · simpa [step, fire, hc] using hw
  | complete res =>
      by_cases hin : 0 < w.inFlight
      · have hpnil : w.pendingTimers = [] := by
          have : w.pendingTimers.length = 0 := by omega
          exact List.length_eq_zero.mp this
        have hifl : w.inFlight - 1 = 0 := by omega
        cases res <;> cases hr : w.isRunning <;>
          simp [step, hin, scanComplete, scan, scanLog, hr, hpnil, hifl]
      · simpa [step, hin] using hw

/-- C4 amended: along any sequence of actions in which `start()` is only
invoked when the scanner is idle (no timeout pending, no scan callback in
flight), at most one scan timer is pending at any instant; moreover
pending timers plus in-flight callbacks never exceed one, i.e. a new
timer is armed only once the previous scan's callback has completed.  (As
stated the claim is false: `start()` while already running arms a second
timer — see the counterexample.) -/
theorem C4_single_timer_clean {ε : Type} [DecidableEq ε] (env : Env)
    (w : World ε) (as : List (ScannerAction ε))
    (hw : w.pendingTimers.length + w.inFlight ≤ 1)
    (hclean : startsOnlyWhenIdle env w as = true) :
    (execTrace env w as).pendingTimers.length ≤ 1 ∧
    (execTrace env w as).pendingTimers.length +
      (execTrace env w as).inFlight ≤ 1 := by
  induction as generalizing w with
  | nil =>
      refine ⟨?_, hw⟩
      simp only [execTrace]
      omega
  | cons a as ih =>
      simp only [startsOnlyWhenIdle, Bool.and_eq_true] at hclean
      obtain ⟨hc1, hc2⟩ := hclean
      have ha : a = ScannerAction.start → w.pendingTimers = [] ∧ w.inFlight = 0 := by
        intro haa
        rw [if_pos haa, Bool.and_eq_true] at hc1
        exact ⟨List.isEmpty_iff.mp hc1.1, by simpa using hc1.2⟩
      exact ih (step env w a) (step_timer_inv env w a hw ha) hc2

theorem C4_single_timer_clean_witness :
    (execTrace envLinuxSafe (World.initial Nat)
        [ScannerAction.start, ScannerAction.fire 0,
         ScannerAction.complete (Except.ok [exSda, exSdb]),
         ScannerAction.stop]).pendingTimers.length ≤ 1 :=
  (C4_single_timer_clean envLinuxSafe (World.initial Nat)
      [ScannerAction.start, ScannerAction.fire 0,
       ScannerAction.complete (Except.ok [exSda, exSdb]),
       ScannerAction.stop] (by decide) (by decide)).1
